import Mathlib

/-!
Verification of the Ad-Platform-Data-Fetcher retrieval pipeline.

This file shallowly embeds the TypeScript sources (src/fetcher.ts,
src/statusFetcher.ts, src/config.ts) in Lean 4 and proves the frozen claims
about the HTTP retry and classification engine, the rate-limit wait-time
resolver, cursor pagination, the asynchronous report-job poll loop, the
batched status enricher and the row normalizer.

Modelling conventions:
- JavaScript numbers that only ever hold small exact decimals are modelled by
  the rationals; "Number(s)" string coercion is modelled by jsNumber, a
  decimal parser (malformed strings yield 0 in the model; the JS original
  yields NaN, a case no claim exercises and that spec section 9 leaves open).
- Network interaction is modelled by traces: fetchWithRetry consumes a
  function from the attempt number to the attempt's outcome (an HTTP response
  or a thrown network exception); the poll loop consumes a list of poll
  responses each paired with the wall-clock duration that poll request took
  (such a duration includes any retry or rate-limit waits performed inside
  the request executor for that poll); the pagination walker and the status
  enricher consume a function from request target to result.
- Math.random jitter is modelled by a rand stream, one rational per attempt.
- The x-business-use-case-usage header is modelled after JSON.parse: either
  absent, present but unparseable, or a parsed object given as an ordered
  key/value list.
- Response headers that are only logged (x-fb-ads-insights-throttle) are
  carried as an uninterpreted optional string.
-/

/- String literals from the sources, bound once so they can be reused in
statements and evaluated by the kernel. -/

def emptyStr : String := ""

def unknownStr : String := "UNKNOWN"

def omniPurchaseStr : String := "omni_purchase"

def purchaseStr : String := "purchase"

def jobCompletedStr : String := "Job Completed"

def jobFailedStr : String := "Job Failed"

def jobSkippedStr : String := "Job Skipped"

def fetchFailedStr : String := "fetch failed"

def econnresetStr : String := "ECONNRESET"

def authFailedDefaultStr : String := "Authentication failed"

def unknownApiErrorStr : String := "Unknown Facebook API error"

/-- Base URL of the Graph API, from src/config.ts (API_VERSION v21.0). -/
def BASE_URL : String := "https://graph.facebook.com/v21.0"

/-- Maximum number of retries on transient or rate-limit errors
(src/config.ts). -/
def MAX_RETRIES : Nat := 3

/-- Default wait when rate-limited: 5 minutes in milliseconds
(src/fetcher.ts). -/
def DEFAULT_RATE_LIMIT_WAIT_MS : ℚ := 5 * 60 * 1000

/-- Poll interval for the async report job, ms (src/fetcher.ts). -/
def REPORT_POLL_INTERVAL_MS : Nat := 5000

/-- Maximum time to wait for a report before giving up, ms
(src/fetcher.ts). -/
def REPORT_TIMEOUT_MS : Nat := 5 * 60 * 1000

/-- Status-lookup batch size (src/statusFetcher.ts, the BATCH_SIZE local). -/
def BATCH_SIZE : Nat := 50

/-- Facebook rate-limit error codes (src/fetcher.ts). -/
def RATE_LIMIT_ERROR_CODES : List Int := [4, 17, 613, 80000, 80003, 80004, 80014]

/-- Facebook authentication error codes (src/fetcher.ts). -/
def AUTH_ERROR_CODES : List Int := [190, 10, 200]

/-- The `error` envelope of a Facebook JSON error body
(interface FacebookErrorBody in src/fetcher.ts). -/
structure FBError where
  code : Option Int
  error_subcode : Option Int
  message : Option String
deriving DecidableEq

/-- Result of `await response.json()`: either the body is not JSON, or it
parses; a parsed body has an optional error envelope, and the rest of the
JSON document is abstracted as an opaque payload number. -/
inductive BodyParse
  | unparseable
  | parsed (error : Option FBError) (payload : Nat)
deriving DecidableEq

/-- One usage entry of the x-business-use-case-usage header. -/
structure BucEntry where
  estimated_time_to_regain_access : Option ℚ
deriving DecidableEq

/-- The JSON value under one key of the parsed usage header: either an array
of usage entries or some non-array value. -/
inductive BucVal
  | arr (entries : List BucEntry)
  | notArray
deriving DecidableEq

/-- The x-business-use-case-usage header as seen after JSON.parse: absent,
present but malformed, or parsed into an ordered key/value list. -/
inductive BucHeader
  | absent
  | malformed
  | parsed (obj : List (String × BucVal))
deriving DecidableEq

/-- An HTTP response: status, parsed body, and the two relevant headers. -/
structure HttpResponse where
  status : Nat
  body : BodyParse
  buc : BucHeader
  throttle : Option String
deriving DecidableEq

/-- What one attempt of fetchWithRetry observes: a response, or an exception
thrown by fetch itself (network failure), identified by its message. -/
inductive AttemptOutcome
  | response (r : HttpResponse)
  | exn (message : String)
deriving DecidableEq

/-- `response.ok` of the fetch API: status in the 200..299 range. -/
def responseOk (status : Nat) : Bool := 200 ≤ status && status < 300

/-- isAuthError from src/fetcher.ts: the error code is truthy and belongs to
the authentication set. The body.error presence test is done by the caller,
as in the source. -/
def isAuthError (e : FBError) : Bool :=
  match e.code with
  | some c => decide (c ≠ 0) && AUTH_ERROR_CODES.contains c
  | none => false

/-- isRateLimitError from src/fetcher.ts. -/
def isRateLimitError (e : FBError) : Bool :=
  match e.code with
  | some c => decide (c ≠ 0) && RATE_LIMIT_ERROR_CODES.contains c
  | none => false

/-- getWaitTimeFromHeaders from src/fetcher.ts. The source takes the whole
Response; here the two headers it reads are passed directly. The throttle
header is only logged by the source, never used for the result, which is why
the parameter is unnamed. If the usage header parses, the source guards on
`firstKey && Array.isArray(parsed[firstKey])`: the first key must be truthy
(a nonempty string) and map to an array; then the array's first entry is
consulted, and a truthy estimated_time_to_regain_access (present and
nonzero) is converted from minutes to milliseconds. Every other shape —
falsy first key included — falls back to the 5-minute default. -/
def getWaitTimeFromHeaders (buc : BucHeader) (_throttle : Option String) : ℚ :=
  match buc with
  | .parsed obj =>
    match obj.head? with
    | some (firstKey, .arr entries) =>
      if firstKey ≠ emptyStr then
        match entries with
        | entry :: _ =>
          match entry.estimated_time_to_regain_access with
          | some v => if v ≠ 0 then v * 60 * 1000 else DEFAULT_RATE_LIMIT_WAIT_MS
          | none => DEFAULT_RATE_LIMIT_WAIT_MS
        | [] => DEFAULT_RATE_LIMIT_WAIT_MS
      else DEFAULT_RATE_LIMIT_WAIT_MS
    | _ => DEFAULT_RATE_LIMIT_WAIT_MS
  | _ => DEFAULT_RATE_LIMIT_WAIT_MS

/-- backoffWithJitter from src/fetcher.ts: 2 to the attempt, in seconds,
converted to ms, plus Math.random times 1000. The random draw is the
`rand` value, in the unit interval. -/
def backoffWithJitter (attempt : Nat) (rand : ℚ) : ℚ :=
  2 ^ attempt * 1000 + rand * 1000

/-- JavaScript String.prototype.includes, on the two fixed patterns the
source tests. -/
def strContains (s pat : String) : Bool :=
  decide (List.IsInfix pat.toList s.toList)

/-- Classified terminal result of one fetchWithRetry invocation. The source
throws AuthenticationError for the auth case, FacebookApiError for the api
cases (the aggregate retries-exhausted throw included), and re-throws plain
errors whose message is not a transient network signature. -/
inductive FetchOutcome
  | success (payload : Nat)
  | authFail (msg : String) (code : Option Int) (subcode : Option Int)
  | apiFail (msg : String) (code : Option Int) (subcode : Option Int)
  | plainFail (msg : String)
deriving DecidableEq

/-- Observable run of fetchWithRetry: classified outcome, number of attempts
actually performed, and the list of sleep durations in order (ms). -/
structure FetchRun where
  outcome : FetchOutcome
  attempts : Nat
  sleeps : List ℚ
deriving DecidableEq

/-- Message of the lastError recorded for a non-JSON 5xx response. -/
def serverErrorMsg (status : Nat) : String :=
  "Server error " ++ toString status ++ " (non-JSON body)"

/-- Message thrown for a non-JSON body on a non-5xx response. -/
def nonJsonRespMsg (status : Nat) : String :=
  "HTTP " ++ toString status ++ ": non-JSON response"

/-- Default message for a 5xx response whose error envelope has no message. -/
def serverErrorDefaultMsg (status : Nat) : String :=
  "Server error " ++ toString status

/-- Message thrown when the body has no error envelope but response.ok is
false; JSON.stringify of the body is abstracted by the opaque payload. -/
def httpErrorMsg (status : Nat) (payload : Nat) : String :=
  "HTTP error " ++ toString status ++ ": " ++ toString payload

/-- The aggregate message thrown once all attempts are exhausted. A missing
lastError renders as the string undefined, as JS template interpolation of
lastError?.message does. -/
def failedAfterMsg (lastError : Option String) : String :=
  "Failed after " ++ toString MAX_RETRIES ++ " retries. Last error: " ++
    lastError.getD "undefined"

/-- The retry loop of fetchWithRetry (src/fetcher.ts lines 175-300), embedded
as fuel recursion: `fuel` is the number of loop iterations still allowed
(MAX_RETRIES at the start), `made` the attempts already performed, `le` the
current lastError message, `sl` the sleeps performed so far in reverse.
`env` gives each attempt's outcome and `rand` each attempt's Math.random
draw. Branches, in source order: parse failure of the body (retry on 5xx,
throw otherwise), auth error in the body (throw, no retry), rate-limit error
in the body (sleep the resolved wait, retry, lastError untouched), 5xx with
an error envelope (throw), any other error envelope (throw), not response.ok
(throw), success; thrown network-signature errors retry with backoff. -/
def fetchWithRetryGo (env : Nat → AttemptOutcome) (rand : Nat → ℚ) :
    Nat → Nat → Option String → List ℚ → FetchRun
  | 0, made, le, sl => ⟨.apiFail (failedAfterMsg le) none none, made, sl.reverse⟩
  | fuel + 1, made, le, sl =>
    let attempt := made + 1
    match env attempt with
    | .exn m =>
      if strContains m fetchFailedStr || strContains m econnresetStr then
        fetchWithRetryGo env rand fuel attempt (some m)
          (backoffWithJitter attempt (rand attempt) :: sl)
      else
        ⟨.plainFail m, attempt, sl.reverse⟩
    | .response r =>
      match r.body with
      | .unparseable =>
        if 500 ≤ r.status then
          fetchWithRetryGo env rand fuel attempt (some (serverErrorMsg r.status))
            (backoffWithJitter attempt (rand attempt) :: sl)
        else
          ⟨.apiFail (nonJsonRespMsg r.status) (some (Int.ofNat r.status)) none,
            attempt, sl.reverse⟩
      | .parsed err payload =>
        match err with
        | some e =>
          if isAuthError e then
            ⟨.authFail (e.message.getD authFailedDefaultStr) e.code e.error_subcode,
              attempt, sl.reverse⟩
          else if isRateLimitError e then
            fetchWithRetryGo env rand fuel attempt le
              (getWaitTimeFromHeaders r.buc r.throttle :: sl)
          else if 500 ≤ r.status then
            ⟨.apiFail (e.message.getD (serverErrorDefaultMsg r.status)) e.code
              e.error_subcode, attempt, sl.reverse⟩
          else
            ⟨.apiFail (e.message.getD unknownApiErrorStr) e.code e.error_subcode,
              attempt, sl.reverse⟩
        | none =>
          if responseOk r.status then
            ⟨.success payload, attempt, sl.reverse⟩
          else
            ⟨.apiFail (httpErrorMsg r.status payload) (some (Int.ofNat r.status))
              none, attempt, sl.reverse⟩

/-- fetchWithRetry over an attempt trace: MAX_RETRIES iterations, starting
with no recorded error. -/
def fetchWithRetry (env : Nat → AttemptOutcome) (rand : Nat → ℚ) : FetchRun :=
  fetchWithRetryGo env rand MAX_RETRIES 0 none []

/- ── Raw and normalized row data model (src/types.ts) ── -/

/-- One entry of actions, action_values or purchase_roas: a category tag and
a string-typed numeric value. -/
structure FacebookActionValue where
  action_type : String
  value : String
deriving DecidableEq

/-- Raw insight row returned by the Insights API (src/types.ts), string-typed
numeric fields, optional action arrays. -/
structure FacebookInsightRow where
  account_id : String
  account_currency : String
  campaign_id : String
  campaign_name : String
  adset_id : String
  adset_name : String
  ad_id : String
  ad_name : String
  objective : String
  impressions : String
  clicks : String
  spend : String
  actions : Option (List FacebookActionValue)
  action_values : Option (List FacebookActionValue)
  purchase_roas : Option (List FacebookActionValue)
  date_start : String
  date_stop : String
  hourly_stats_aggregated_by_advertiser_time_zone : String
deriving DecidableEq

/-- A normalized action entry of the output record. -/
structure ActionEntry where
  type : String
  count : ℚ
deriving DecidableEq

/-- The normalized output record (src/types.ts AdHourlyRecord). -/
structure AdHourlyRecord where
  account_id : String
  date : String
  hour : String
  campaign_id : String
  campaign_name : String
  adset_id : String
  adset_name : String
  ad_id : String
  ad_name : String
  currency : String
  status : String
  objective : String
  impressions : ℚ
  clicks : ℚ
  spend : ℚ
  purchase_roas : Option ℚ
  purchase_value : Option ℚ
  actions : List ActionEntry
deriving DecidableEq

/-- JavaScript Number(string) coercion, restricted to the decimal strings the
upstream API sends: optional minus sign, digits, optional fractional part.
A malformed string yields 0 in this model where JS yields NaN; no claim and
no row exercised by the claims hits that case (spec section 9 leaves it
open). The empty string yields 0, as in JS. -/
def jsNumber (s : String) : ℚ :=
  let cs := s.toList
  let neg := cs.head? = some (Char.ofNat 45)
  let cs2 := if neg then cs.drop 1 else cs
  let ip := cs2.takeWhile (fun c => c ≠ Char.ofNat 46)
  let rest := cs2.dropWhile (fun c => c ≠ Char.ofNat 46)
  let fp := rest.drop 1
  if ip.all (·.isDigit) && fp.all (·.isDigit) && (rest.length ≤ 1 || !fp.isEmpty)
  then
    let ipv : ℚ := ip.foldl (fun a c => a * 10 + (c.toNat - 48 : Nat)) (0 : ℚ)
    let fpv : ℚ := fp.foldl (fun a c => a * 10 + (c.toNat - 48 : Nat)) (0 : ℚ)
    let v := ipv + fpv / 10 ^ fp.length
    if neg then -v else v
  else 0

/-- normalizeRow from src/fetcher.ts (lines 574-616): selects purchase_roas
(first omni_purchase entry, else first entry, else null), purchase_value
(first omni_purchase entry of action_values, else first purchase entry, else
null), maps actions to type/count pairs in order, and coerces the numeric
string fields. The JS nullish-coalescing chains become Option.orElse. -/
def normalizeRow (row : FacebookInsightRow) (status : String) : AdHourlyRecord :=
  let purchaseRoas : Option String :=
    (row.purchase_roas.bind fun l =>
        (l.find? fun r => r.action_type = omniPurchaseStr).map (·.value)).orElse
      fun _ => row.purchase_roas.bind fun l => l.head?.map (·.value)
  let purchaseValue : Option String :=
    (row.action_values.bind fun l =>
        (l.find? fun a => a.action_type = omniPurchaseStr).map (·.value)).orElse
      fun _ => row.action_values.bind fun l =>
        (l.find? fun a => a.action_type = purchaseStr).map (·.value)
  let actions := (row.actions.getD []).map fun a =>
    ActionEntry.mk a.action_type (jsNumber a.value)
  { account_id := row.account_id
    date := row.date_start
    hour := row.hourly_stats_aggregated_by_advertiser_time_zone
    campaign_id := row.campaign_id
    campaign_name := row.campaign_name
    adset_id := row.adset_id
    adset_name := row.adset_name
    ad_id := row.ad_id
    ad_name := row.ad_name
    currency := row.account_currency
    status := status
    objective := row.objective
    impressions := jsNumber row.impressions
    clicks := jsNumber row.clicks
    spend := jsNumber row.spend
    purchase_roas := purchaseRoas.map jsNumber
    purchase_value := purchaseValue.map jsNumber
    actions := actions }

/- ── Pagination walker (fetchReportResults, src/fetcher.ts 476-509) ── -/

/-- One page of report results: the data array and paging.next, null/absent
both modelled as none. -/
structure FBPage where
  data : List FacebookInsightRow
  next : Option String
deriving DecidableEq

/-- The initial results URL built by fetchReportResults:
BASE_URL/{reportId}/insights?access_token=...&limit=500 (URLSearchParams
percent-encoding is not modelled; the URL is only used as a lookup key). -/
def resultsUrl (reportId accessToken : String) : String :=
  BASE_URL ++ "/" ++ reportId ++ "/insights?access_token=" ++ accessToken ++
    "&limit=500"

/-- The while loop of fetchReportResults, as fuel recursion over a page
server. Returns the accumulated rows and the number of requests issued, or
none if the fuel is exhausted while next keeps pointing onward (the source
loop would still be running). A nonempty data array is appended to the
accumulator; the cursor advances to paging.next (null ends the loop). -/
def fetchReportResultsGo (server : String → FBPage) :
    Nat → Option String → List FacebookInsightRow → Nat →
    Option (List FacebookInsightRow × Nat)
  | _, none, acc, reqs => some (acc, reqs)
  | 0, some _, _, _ => none
  | fuel + 1, some u, acc, reqs =>
    let p := server u
    fetchReportResultsGo server fuel p.next
      (if p.data.isEmpty then acc else acc ++ p.data) (reqs + 1)

/-- fetchReportResults over a page server: starts at the job's results edge
with an empty accumulator. -/
def fetchReportResults (server : String → FBPage) (reportId accessToken : String)
    (fuel : Nat) : Option (List FacebookInsightRow × Nat) :=
  fetchReportResultsGo server fuel (some (resultsUrl reportId accessToken)) [] 0

/-- The premise of the pagination claim: starting from the cursor `url`, the
server serves exactly this url/page chain, each page's next naming the
following pair's URL, the last page's next absent. -/
def ChainedFrom (server : String → FBPage) :
    Option String → List (String × FBPage) → Prop
  | none, [] => True
  | some u, (u2, p) :: rest => u = u2 ∧ server u2 = p ∧ ChainedFrom server p.next rest
  | none, _ :: _ => False
  | some _, [] => False

/- ── Async report poll loop (waitForReport, src/fetcher.ts 431-471) ── -/

/-- One poll response: async_status and async_percent_completion. -/
structure ReportStatusResp where
  async_status : String
  async_percent_completion : ℚ
deriving DecidableEq

/-- Terminal result of the poll loop. The source returns unit on completion
and throws FacebookApiError otherwise; the failure constructors carry the
data the source interpolates into the thrown message: the terminal status
for a failed/skipped job, and the last seen status with its percent-complete
for a timeout. outOfTrace marks a trace too short to decide the run (the
source loop would still be polling). Each constructor records how many polls
were issued. -/
inductive WaitResult
  | completed (polls : Nat)
  | failedJob (finalStatus : String) (polls : Nat)
  | timedOut (lastStatus : String) (lastPct : ℚ) (polls : Nat)
  | outOfTrace (polls : Nat)
deriving DecidableEq

/-- The while-true loop of waitForReport over a poll trace. Each trace entry
is the poll response paired with the wall-clock duration of that poll request
in ms (inclusive of any retry or rate-limit waits the request executor spent
inside it). `elapsed` is Date.now() minus the fixed startTime as of the
moment the request was issued; the check order is the source's: completed,
failed/skipped, timeout, then sleep the 5-second interval and poll again. -/
def waitForReportGo : List (ReportStatusResp × Nat) → Nat → Nat → WaitResult
  | [], _, polls => .outOfTrace polls
  | (st, d) :: rest, elapsed, polls =>
    let e := elapsed + d
    if st.async_status = jobCompletedStr then .completed (polls + 1)
    else if st.async_status = jobFailedStr ∨ st.async_status = jobSkippedStr then
      .failedJob st.async_status (polls + 1)
    else if REPORT_TIMEOUT_MS < e then
      .timedOut st.async_status st.async_percent_completion (polls + 1)
    else waitForReportGo rest (e + REPORT_POLL_INTERVAL_MS) (polls + 1)

/-- waitForReport over a poll trace: the timeout clock starts at zero when
the job is submitted and is never reset. -/
def waitForReport (trace : List (ReportStatusResp × Nat)) : WaitResult :=
  waitForReportGo trace 0 0

/-- A poll response that keeps the loop going: neither completed nor
failed/skipped. -/
def nonTerminalB (st : ReportStatusResp) : Bool :=
  !(st.async_status = jobCompletedStr) && !(st.async_status = jobFailedStr) &&
    !(st.async_status = jobSkippedStr)

/-- A trace prefix that the loop walks through entirely: every poll is
non-terminal and lands within the timeout, given the elapsed time at which
the prefix starts. -/
def inTimeTrace : List (ReportStatusResp × Nat) → Nat → Bool
  | [], _ => true
  | (st, d) :: rest, elapsed =>
    nonTerminalB st && decide (elapsed + d ≤ REPORT_TIMEOUT_MS) &&
      inTimeTrace rest (elapsed + d + REPORT_POLL_INTERVAL_MS)

/-- Elapsed wall-clock contributed by a fully-walked trace prefix: each poll
adds its request duration plus the 5-second sleep that follows it. -/
def traceElapsed : List (ReportStatusResp × Nat) → Nat
  | [] => 0
  | (_, d) :: rest => d + REPORT_POLL_INTERVAL_MS + traceElapsed rest

/- ── Status enricher (src/statusFetcher.ts 75-123) ── -/

/-- JavaScript `[...new Set(xs)]`: insertion-order deduplication keeping the
first occurrence of each element. -/
def jsDedup : List String → List String
  | [] => []
  | x :: xs => x :: jsDedup (xs.filter fun y => y ≠ x)
termination_by l => l.length
decreasing_by
  simpa using Nat.lt_succ_of_le (List.length_filter_le _ xs)

/-- The batching loop `for (let i = 0; i < ids.length; i += BATCH_SIZE)`
with `slice(i, i + BATCH_SIZE)`: splits a list into consecutive chunks of at
most BATCH_SIZE elements. -/
def chunkList : List String → List (List String)
  | [] => []
  | x :: xs => (x :: xs).take BATCH_SIZE :: chunkList ((x :: xs).drop BATCH_SIZE)
termination_by l => l.length
decreasing_by
  simp only [BATCH_SIZE, List.length_drop, List.length_cons]
  omega

/-- JavaScript Map.prototype.set on an insertion-ordered association list:
an existing key keeps its position and gets the new value, a new key is
appended at the end. -/
def mapSet : List (String × String) → String → String → List (String × String)
  | [], k, v => [(k, v)]
  | (a, b) :: rest, k, v =>
    if a = k then (k, v) :: rest else (a, b) :: mapSet rest k v

/-- JavaScript Map.prototype.get: the value stored under the key, if any. -/
def mapGet (m : List (String × String)) (k : String) : Option String :=
  (m.find? fun p => p.1 = k).map (·.2)

/-- The observable result of one batched status lookup request: the parsed
response as the (id, effective_status) entries that Object.entries yields (a
missing effective_status is none), or a failure after the inner
fetchWithRetry of src/statusFetcher.ts exhausted its retries. -/
inductive BatchResult
  | ok (entries : List (String × Option String))
  | err
deriving DecidableEq

/-- The per-batch body of the fetchAdStatuses loop: a successful batch merges
its entries into the map (a missing effective_status falls back to UNKNOWN),
a failed batch degrades gracefully by assigning UNKNOWN to every id of the
batch. -/
def applyBatch (lookup : List String → BatchResult)
    (m : List (String × String)) (batch : List String) : List (String × String) :=
  match lookup batch with
  | .ok entries =>
    entries.foldl (fun m2 e => mapSet m2 e.1 (e.2.getD unknownStr)) m
  | .err => batch.foldl (fun m2 id => mapSet m2 id unknownStr) m

/-- The batch loop of fetchAdStatuses: fold the per-batch body over the
batches, starting from the empty map. -/
def runBatches (lookup : List String → BatchResult)
    (batches : List (List String)) : List (String × String) :=
  batches.foldl (applyBatch lookup) []

/-- The status an id ends up with after its batch is processed, given the
response shape assumed of the lookup: UNKNOWN for a failed batch, the
per-id status for a successful one. -/
def batchValue (lookup : List String → BatchResult) (f : String → String)
    (b : List String) (id : String) : String :=
  match lookup b with
  | .err => unknownStr
  | .ok _ => f id

/-- A lookup oracle that, on each given batch, either fails outright or
returns exactly one entry per requested id, the id's status being f id. -/
def GoodLookup (lookup : List String → BatchResult) (f : String → String)
    (bs : List (List String)) : Prop :=
  ∀ b ∈ bs, lookup b = .err ∨ lookup b = .ok (b.map fun i => (i, some (f i)))

/-- fetchAdStatuses from src/statusFetcher.ts: early empty return, then
deduplicate, batch by BATCH_SIZE, and run one lookup per batch. The second
component records the id batches sent upstream, one request each, in order
(the source builds one URL per batch from exactly these ids). -/
def fetchAdStatuses (adIds : List String) (lookup : List String → BatchResult) :
    List (String × String) × List (List String) :=
  match adIds with
  | [] => ([], [])
  | _ :: _ =>
    let batches := chunkList (jsDedup adIds)
    (runBatches lookup batches, batches)

/- ── fetchAdData normalization step (src/fetcher.ts 686-689) ── -/

/-- Step 4 of fetchAdData: each retrieved insight row is normalized with the
status resolved from the status map, defaulting to the UNKNOWN sentinel when
the map has no entry for the row's ad_id. -/
def fetchAdDataNormalized (insightRows : List FacebookInsightRow)
    (statusMap : List (String × String)) : List AdHourlyRecord :=
  insightRows.map fun row =>
    normalizeRow row ((mapGet statusMap row.ad_id).getD unknownStr)

/- ── Trace predicates for the retry-loop claims ── -/

/-- A thrown-error message the source treats as a transient network failure:
it contains one of the two network signatures. -/
def TransientMsgB (m : String) : Bool :=
  strContains m fetchFailedStr || strContains m econnresetStr

/-- An attempt outcome the retry loop does not terminate on: a body-level
rate-limit error (and not an auth error), a 5xx response without a JSON
body, or a thrown network-signature error. -/
def RetryableOutcome (o : AttemptOutcome) : Prop :=
  (∃ r e payload, o = .response r ∧ r.body = .parsed (some e) payload ∧
    isAuthError e = false ∧ isRateLimitError e = true) ∨
  (∃ r, o = .response r ∧ r.body = .unparseable ∧ 500 ≤ r.status) ∨
  (∃ m, o = .exn m ∧ TransientMsgB m = true)

/-- The two retryable outcomes that take the exponential-backoff branch
(server transient, network transient), as opposed to the rate-limit wait. -/
def TransientOutcome (o : AttemptOutcome) : Prop :=
  (∃ r, o = .response r ∧ r.body = .unparseable ∧ 500 ≤ r.status) ∨
  (∃ m, o = .exn m ∧ TransientMsgB m = true)

/-- How one retryable attempt updates the loop's lastError variable: a
caught exception records its message, a non-JSON 5xx records the synthetic
server-error message, and the rate-limit branch leaves lastError untouched
(the source never assigns it there). -/
def recordedMsgUpdate (o : AttemptOutcome) (le : Option String) : Option String :=
  match o with
  | .exn m => some m
  | .response r =>
    match r.body with
    | .unparseable => some (serverErrorMsg r.status)
    | .parsed _ _ => le

/-- lastError as recorded after the first n retryable attempts. -/
def lastRecorded (env : Nat → AttemptOutcome) (n : Nat) : Option String :=
  (List.range n).foldl (fun le i => recordedMsgUpdate (env (i + 1)) le) none

/-- The sleep a retryable attempt performs before the loop continues:
backoff-with-jitter for the transient branches, the header-resolved wait for
the rate-limit branch. -/
def retrySleep (env : Nat → AttemptOutcome) (rand : Nat → ℚ) (attempt : Nat) : ℚ :=
  match env attempt with
  | .exn _ => backoffWithJitter attempt (rand attempt)
  | .response r =>
    match r.body with
    | .unparseable => backoffWithJitter attempt (rand attempt)
    | .parsed _ _ => getWaitTimeFromHeaders r.buc r.throttle

/- ── Concrete inputs used by the witnesses and the counterexample ── -/

/-- A zero jitter stream. -/
def rand0 : Nat → ℚ := fun _ => 0

def authMsgW : String := "Invalid OAuth access token."

/-- An authentication error envelope (code 190 with a subcode). -/
def authErrW : FBError := ⟨some 190, some 463, some authMsgW⟩

/-- An HTTP 500 response whose JSON body carries the auth error: the claim's
precedence case. -/
def respAuth500 : HttpResponse := ⟨500, .parsed (some authErrW) 0, .absent, none⟩

def envAuthW : Nat → AttemptOutcome := fun _ => .response respAuth500

/-- A 503 response with a non-JSON body: a server-transient outcome. -/
def respSrvErr : HttpResponse := ⟨503, .unparseable, .absent, none⟩

def envAllSrvErr : Nat → AttemptOutcome := fun _ => .response respSrvErr

def rlMsgX : String := "User request limit reached"

/-- A rate-limit error envelope (code 4). -/
def rlErrX : FBError := ⟨some 4, some 1504022, some rlMsgX⟩

/-- An HTTP 400 response carrying the rate-limit error, no usage header. -/
def respRlX : HttpResponse := ⟨400, .parsed (some rlErrX) 0, .absent, none⟩

/-- Counterexample trace for the aggregate-error claim: a server-transient
first attempt followed by rate-limited attempts, so the last observed error
kind is RateLimit while the recorded lastError stays the server error. -/
def envRlLast : Nat → AttemptOutcome := fun n =>
  if n = 1 then .response respSrvErr else .response respRlX

def jobStartedStr : String := "Job Started"

def jobRunningStr : String := "Job Running"

/-- The poll sequence Started, Running, Completed with instant requests. -/
def pollSeqW : List (ReportStatusResp × Nat) :=
  [(⟨jobStartedStr, 0⟩, 0), (⟨jobRunningStr, 50⟩, 0), (⟨jobCompletedStr, 100⟩, 0)]

def aStr : String := "a"

def bStr : String := "b"

/-- A raw insight row whose every string field is the given tag (its ad_id in
particular) and whose optional arrays are absent. -/
def mkRowW (s : String) : FacebookInsightRow :=
  ⟨s, s, s, s, s, s, s, s, s, s, s, s, none, none, none, s, s, s⟩

def ridW : String := "9876543210"

def tokW : String := "testtoken"

def urlW2 : String := "https://graph.facebook.com/v21.0/page2cursor"

/-- First results page: two rows, next pointing at the second page. -/
def pageW1 : FBPage := ⟨[mkRowW aStr, mkRowW bStr], some urlW2⟩

/-- Second results page: repeats the first row (the walker must keep the
duplicate), no next. -/
def pageW2 : FBPage := ⟨[mkRowW aStr], none⟩

def serverW : String → FBPage := fun u => if u = urlW2 then pageW2 else pageW1

/-- The url/page chain served by serverW. -/
def pagesW : List (String × FBPage) :=
  [(resultsUrl ridW tokW, pageW1), (urlW2, pageW2)]

/-- 120 distinct ad ids. -/
def adIdsW : List String := (List.range 120).map fun n => toString n

/-- The second batch of adIdsW: ids 50 to 99. -/
def batch2W : List String := (List.range 50).map fun n => toString (n + 50)

/-- The first batch of adIdsW: ids 0 to 49. -/
def batch1W : List String := (List.range 50).map fun n => toString n

/-- What remains of adIdsW after the first batch: ids 50 to 119. -/
def rest1W : List String := (List.range 70).map fun n => toString (n + 50)

/-- The third batch of adIdsW: ids 100 to 119. -/
def batch3W : List String := (List.range 20).map fun n => toString (n + 100)

def statusPrefixW : String := "STATUS_"

/-- The status the successful lookups report for an id. -/
def fW : String → String := fun id => statusPrefixW ++ id

/-- A lookup oracle that fails the second batch outright and answers every
other batch with one status entry per requested id. -/
def lookupW : List String → BatchResult := fun b =>
  if b = batch2W then .err else .ok (b.map fun id => (id, some (fW id)))

/- ── Claim C1 ── -/

/-- C1: any response whose parsed JSON body carries an error envelope with a
code in the authentication set {190, 10, 200} makes fetchWithRetry fail at
once with the authentication error built from that envelope, after a single
attempt and with no sleep, whatever the HTTP status code is (the witness
instantiates the HTTP 500 case). -/
theorem claim_C1_auth_precedence (env : Nat → AttemptOutcome) (rand : Nat → ℚ)
    (r : HttpResponse) (e : FBError) (payload : Nat) (c : Int)
    (henv : env 1 = .response r) (hbody : r.body = .parsed (some e) payload)
    (hcode : e.code = some c) (hmem : c ∈ AUTH_ERROR_CODES) :
    fetchWithRetry env rand =
      ⟨.authFail (e.message.getD authFailedDefaultStr) e.code e.error_subcode,
        1, []⟩ := by
  have hauth : isAuthError e = true := by
    simp only [isAuthError, hcode]
    simp only [AUTH_ERROR_CODES, List.mem_cons, List.not_mem_nil, or_false] at hmem
    rcases hmem with rfl | rfl | rfl <;> decide
  show fetchWithRetryGo env rand (2 + 1) 0 none [] = _
  rw [fetchWithRetryGo]
  simp [henv, hbody, hauth]

/-- Witness for C1 at a concrete trace: HTTP status 500 together with auth
code 190 in the body classifies as the authentication failure on the first
attempt, with no retry sleep. -/
theorem claim_C1_auth_precedence_witness :
    envAuthW 1 = .response respAuth500 ∧
    respAuth500.body = .parsed (some authErrW) 0 ∧
    authErrW.code = some 190 ∧ (190 : Int) ∈ AUTH_ERROR_CODES ∧
    respAuth500.status = 500 ∧
    fetchWithRetry envAuthW rand0 =
      ⟨.authFail authMsgW (some 190) (some 463), 1, []⟩ :=
  ⟨rfl, rfl, rfl, by decide, rfl, by
    rw [claim_C1_auth_precedence envAuthW rand0 respAuth500 authErrW 0 190 rfl rfl
      rfl (by decide)]
    rfl⟩

/- ── Claim C3 ── -/

/-- C3: the wait-time resolver maps a parsed usage header whose first key is
truthy (nonempty, as the claim's key 123 is) and whose first entry estimates
10 minutes to 600000 ms; an absent header, a malformed header, or an entry
missing the estimated-minutes field all resolve to the 300000 ms default;
and the result never depends on the informational throttle header. -/
theorem claim_C3_wait_time_resolution :
    (∀ (t : Option String) (key : String) (tail : List BucEntry)
        (objTail : List (String × BucVal)), key ≠ emptyStr →
      getWaitTimeFromHeaders (.parsed ((key, .arr (⟨some 10⟩ :: tail)) :: objTail)) t
        = 600000) ∧
    (∀ t, getWaitTimeFromHeaders .absent t = 300000) ∧
    (∀ t, getWaitTimeFromHeaders .malformed t = 300000) ∧
    (∀ (t : Option String) (key : String) (tail : List BucEntry)
        (objTail : List (String × BucVal)),
      getWaitTimeFromHeaders (.parsed ((key, .arr (⟨none⟩ :: tail)) :: objTail)) t
        = 300000) ∧
    (∀ (buc : BucHeader) (t t' : Option String),
      getWaitTimeFromHeaders buc t = getWaitTimeFromHeaders buc t') := by
  refine ⟨?_, ?_, ?_, ?_, fun _ _ _ => rfl⟩ <;>
    intros <;> simp_all [getWaitTimeFromHeaders, DEFAULT_RATE_LIMIT_WAIT_MS] <;>
    norm_num

/- ── Claim C10 ── -/

/-- C10: a well-formed usage header whose first entry estimates 0 minutes to
regain access resolves to the 300000 ms default, not to a zero wait: the
source tests the field for truthiness, and 0 is falsy. -/
theorem claim_C10_zero_estimate_falls_back :
    ∀ (t : Option String) (key : String) (tail : List BucEntry)
      (objTail : List (String × BucVal)),
      getWaitTimeFromHeaders (.parsed ((key, .arr (⟨some 0⟩ :: tail)) :: objTail)) t
          = DEFAULT_RATE_LIMIT_WAIT_MS ∧
        DEFAULT_RATE_LIMIT_WAIT_MS = 300000 ∧ DEFAULT_RATE_LIMIT_WAIT_MS ≠ 0 := by
  intros
  refine ⟨?_, by norm_num [DEFAULT_RATE_LIMIT_WAIT_MS], by
    norm_num [DEFAULT_RATE_LIMIT_WAIT_MS]⟩
  simp [getWaitTimeFromHeaders]

/- ── Claims C5 and C6: the poll loop ── -/

/-- The poll loop walks through a prefix of non-terminal, in-time polls,
accumulating each poll's request duration plus the fixed interval onto the
elapsed clock and one onto the poll counter. -/
theorem waitForReportGo_skip (prefixT : List (ReportStatusResp × Nat)) :
    ∀ (rest : List (ReportStatusResp × Nat)) (elapsed polls : Nat),
      inTimeTrace prefixT elapsed = true →
      waitForReportGo (prefixT ++ rest) elapsed polls =
        waitForReportGo rest (elapsed + traceElapsed prefixT)
          (polls + prefixT.length) := by
  induction prefixT with
  | nil => intro rest elapsed polls _; simp [traceElapsed]
  | cons hd tl ih =>
    intro rest elapsed polls h
    obtain ⟨st, d⟩ := hd
    simp only [inTimeTrace, Bool.and_eq_true, decide_eq_true_eq] at h
    obtain ⟨⟨hnt, hle⟩, htl⟩ := h
    simp only [nonTerminalB, Bool.and_eq_true, Bool.not_eq_true',
      decide_eq_false_iff_not] at hnt
    rw [List.cons_append, waitForReportGo]
    simp only [hnt.1.1, hnt.1.2, hnt.2, if_false, or_self, ite_false,
      Nat.not_lt.mpr hle, if_neg (Nat.not_lt.mpr hle)]
    rw [ih rest (elapsed + d + REPORT_POLL_INTERVAL_MS) (polls + 1) htl]
    have h1 : elapsed + d + REPORT_POLL_INTERVAL_MS + traceElapsed tl =
        elapsed + traceElapsed ((st, d) :: tl) := by
      simp [traceElapsed]; omega
    have h2 : polls + 1 + tl.length = polls + ((st, d) :: tl).length := by
      simp [List.length_cons]; omega
    rw [h1, h2]

/-- C5: the poll loop resolves on the first poll whose async_status is Job
Completed (the Started, Running, Completed sequence resolves after exactly 3
polls); the first Job Failed or Job Skipped poll fails the loop at once,
whatever polls would follow; and any other status within the timeout leads
to exactly one more iteration after the fixed 5-second interval. -/
theorem claim_C5_poll_dispatch :
    (waitForReport pollSeqW = .completed 3) ∧
    (∀ (st : ReportStatusResp) (d : Nat) (rest : List (ReportStatusResp × Nat))
        (elapsed polls : Nat),
      st.async_status = jobFailedStr ∨ st.async_status = jobSkippedStr →
      waitForReportGo ((st, d) :: rest) elapsed polls =
        .failedJob st.async_status (polls + 1)) ∧
    (∀ (st : ReportStatusResp) (d : Nat) (rest : List (ReportStatusResp × Nat))
        (elapsed polls : Nat),
      nonTerminalB st = true → elapsed + d ≤ REPORT_TIMEOUT_MS →
      waitForReportGo ((st, d) :: rest) elapsed polls =
        waitForReportGo rest (elapsed + d + REPORT_POLL_INTERVAL_MS) (polls + 1)) ∧
    (∀ (st : ReportStatusResp) (d : Nat) (rest : List (ReportStatusResp × Nat))
        (elapsed polls : Nat),
      st.async_status = jobCompletedStr →
      waitForReportGo ((st, d) :: rest) elapsed polls = .completed (polls + 1)) := by
  refine ⟨by decide, ?_, ?_, ?_⟩
  · intro st d rest elapsed polls h
    rw [waitForReportGo]
    rcases h with h | h <;> rw [h] <;>
      simp [jobFailedStr, jobSkippedStr, jobCompletedStr]
  · intro st d rest elapsed polls hnt hle
    simp only [nonTerminalB, Bool.and_eq_true, Bool.not_eq_true',
      decide_eq_false_iff_not] at hnt
    rw [waitForReportGo]
    simp [hnt.1.1, hnt.1.2, hnt.2, Nat.not_lt.mpr hle]
  · intro st d rest elapsed polls h
    rw [waitForReportGo, h]
    simp

/-- Witness for C5: a Job Failed poll terminates the loop at once even with
polls queued behind it, and a Running poll within the timeout proceeds to
the next poll 5 seconds later, where Completed resolves. -/
theorem claim_C5_poll_dispatch_witness :
    waitForReportGo [(⟨jobFailedStr, 0⟩, 120), (⟨jobRunningStr, 10⟩, 0)] 3000 1 =
        .failedJob jobFailedStr 2 ∧
      waitForReport [(⟨jobRunningStr, 10⟩, 1000), (⟨jobCompletedStr, 100⟩, 0)] =
        .completed 2 :=
  ⟨claim_C5_poll_dispatch.2.1 ⟨jobFailedStr, 0⟩ 120 [(⟨jobRunningStr, 10⟩, 0)] 3000 1
      (Or.inl rfl),
    by
      show waitForReportGo _ 0 0 = _
      rw [claim_C5_poll_dispatch.2.2.1 ⟨jobRunningStr, 10⟩ 1000
        [(⟨jobCompletedStr, 100⟩, 0)] 0 0 (by decide) (by decide)]
      exact claim_C5_poll_dispatch.2.2.2 ⟨jobCompletedStr, 100⟩ 0 [] 6000 1 rfl⟩

/-- C6: when the elapsed clock, which starts at submission and accumulates
every poll request's own duration (rate-limit and retry waits inside a poll
included) plus the fixed interval, exceeds the 5-minute threshold at a
non-terminal poll, the loop fails with the timeout error carrying that
poll's async_status and percent-complete. The clock is threaded forward and
never reset: a long rate-limit wait inside one poll request pushes a later
poll past the threshold. -/
theorem claim_C6_timeout (prefixT : List (ReportStatusResp × Nat))
    (st : ReportStatusResp) (d : Nat) (rest : List (ReportStatusResp × Nat))
    (h1 : inTimeTrace prefixT 0 = true) (h2 : nonTerminalB st = true)
    (h3 : REPORT_TIMEOUT_MS < traceElapsed prefixT + d) :
    waitForReport (prefixT ++ (st, d) :: rest) =
      .timedOut st.async_status st.async_percent_completion
        (prefixT.length + 1) := by
  unfold waitForReport
  rw [waitForReportGo_skip prefixT ((st, d) :: rest) 0 0 h1]
  simp only [nonTerminalB, Bool.and_eq_true, Bool.not_eq_true',
    decide_eq_false_iff_not] at h2
  rw [waitForReportGo]
  have ht : REPORT_TIMEOUT_MS < 0 + traceElapsed prefixT + d := by omega
  simp [h2.1.1, h2.1.2, h2.2, ht]
  intro hc
  exact absurd h3 (Nat.not_lt.mpr hc)

/-- Witness for C6: the first poll is fine, but the second poll's request
spends 300 seconds inside the executor (a rate-limit wait), pushing the
fixed-start clock to 305 seconds; the loop times out on that poll carrying
its Running status and 42 percent completion after 2 polls. -/
theorem claim_C6_timeout_witness :
    waitForReport [(⟨jobStartedStr, 0⟩, 0), (⟨jobRunningStr, 42⟩, 300000)] =
      .timedOut jobRunningStr 42 2 :=
  claim_C6_timeout [(⟨jobStartedStr, 0⟩, 0)] ⟨jobRunningStr, 42⟩ 300000 []
    (by decide) (by decide) (by decide)

/- ── Claim C4: the pagination walker ── -/

/-- Walking a served url/page chain from any accumulator state appends the
concatenation of the chain's data arrays and issues one request per page. -/
theorem fetchReportResultsGo_chain (server : String → FBPage) :
    ∀ (ps : List (String × FBPage)) (url : Option String)
      (acc : List FacebookInsightRow) (reqs fuel : Nat),
      ChainedFrom server url ps → ps.length ≤ fuel →
      fetchReportResultsGo server fuel url acc reqs =
        some (acc ++ (ps.map fun q => q.2.data).flatten, reqs + ps.length) := by
  intro ps
  induction ps with
  | nil =>
    intro url acc reqs fuel hchain _
    cases url with
    | none => simp [fetchReportResultsGo]
    | some u => exact absurd hchain (by simp [ChainedFrom])
  | cons hd tl ih =>
    intro url acc reqs fuel hchain hfuel
    obtain ⟨u2, p⟩ := hd
    cases url with
    | none => exact absurd hchain (by simp [ChainedFrom])
    | some u =>
      obtain ⟨rfl, hserv, htl⟩ := hchain
      cases fuel with
      | zero => simp at hfuel
      | succ fuel =>
        rw [fetchReportResultsGo]
        have hacc : (if (server u).data.isEmpty then acc
            else acc ++ (server u).data) = acc ++ (server u).data := by
          cases hemp : (server u).data.isEmpty with
          | true =>
            simp only [List.isEmpty_iff] at hemp
            simp [hemp]
          | false => simp
        rw [hacc, hserv,
          ih p.next (acc ++ p.data) (reqs + 1) fuel htl (by simpa using hfuel)]
        simp [List.append_assoc]
        omega

/-- C4: for a finite chain of pages in which each page's paging.next names
the next page's URL and the last page's next is absent, fetchReportResults
returns the concatenation of the pages' data arrays in arrival order
(duplicates across pages are kept as-is) and issues exactly one request per
page, terminating because next is absent. -/
theorem claim_C4_pagination (server : String → FBPage)
    (reportId accessToken : String) (ps : List (String × FBPage)) (fuel : Nat)
    (hchain : ChainedFrom server (some (resultsUrl reportId accessToken)) ps)
    (hfuel : ps.length ≤ fuel) :
    fetchReportResults server reportId accessToken fuel =
      some ((ps.map fun q => q.2.data).flatten, ps.length) := by
  unfold fetchReportResults
  rw [fetchReportResultsGo_chain server ps (some (resultsUrl reportId accessToken))
    [] 0 fuel hchain hfuel]
  simp

/-- Witness for C4 on a two-page chain: the walker returns the three rows in
arrival order, repeating the row that occurs on both pages (no
deduplication), with exactly 2 requests. -/
theorem claim_C4_pagination_witness :
    ChainedFrom serverW (some (resultsUrl ridW tokW)) pagesW ∧
    fetchReportResults serverW ridW tokW 2 =
      some ([mkRowW aStr, mkRowW bStr, mkRowW aStr], 2) := by
  have hchain : ChainedFrom serverW (some (resultsUrl ridW tokW)) pagesW :=
    ⟨rfl, by decide, rfl, by decide, trivial⟩
  refine ⟨hchain, ?_⟩
  rw [claim_C4_pagination serverW ridW tokW pagesW 2 hchain (by decide)]
  decide

/- ── Claim C8: the row normalizer ── -/

/-- C8: for every raw row and status, the normalizer sets purchase_roas from
the first purchase_roas entry tagged omni_purchase, else the first entry,
else null when the list is absent or empty; purchase_value from the first
action_values entry tagged omni_purchase, else the first tagged purchase,
else null; and maps every actions entry to its type/count pair in upstream
order, with the empty list when actions is absent. -/
theorem claim_C8_normalizer (row : FacebookInsightRow) (status : String) :
    (normalizeRow row status).purchase_roas =
      (match row.purchase_roas with
        | none => none
        | some l =>
          match l.find? fun r => r.action_type = omniPurchaseStr with
          | some e => some (jsNumber e.value)
          | none =>
            match l with
            | [] => none
            | e :: _ => some (jsNumber e.value)) ∧
    (normalizeRow row status).purchase_value =
      (match row.action_values with
        | none => none
        | some l =>
          match l.find? fun a => a.action_type = omniPurchaseStr with
          | some e => some (jsNumber e.value)
          | none =>
            match l.find? fun a => a.action_type = purchaseStr with
            | some e => some (jsNumber e.value)
            | none => none) ∧
    (normalizeRow row status).actions =
      (match row.actions with
        | none => []
        | some l => l.map fun a => ActionEntry.mk a.action_type (jsNumber a.value)) := by
  refine ⟨?_, ?_, ?_⟩
  · cases hpr : row.purchase_roas with
    | none => simp [normalizeRow, hpr]
    | some l =>
      cases hf : l.find? fun r => r.action_type = omniPurchaseStr with
      | some e => simp [normalizeRow, hpr, hf, Option.orElse]
      | none =>
        cases l with
        | nil => simp [normalizeRow, hpr]
        | cons hd tl =>
          simp only [List.find?_eq_none, List.mem_cons, decide_eq_true_eq] at hf
          have htl : (tl.find? fun r => r.action_type = omniPurchaseStr) = none := by
            apply List.find?_eq_none.mpr
            intro a ha
            simpa using hf a (Or.inr ha)
          have hhd : ¬ hd.action_type = omniPurchaseStr := hf hd (Or.inl rfl)
          simp [normalizeRow, hpr, htl, hhd, Option.orElse]
  · cases hav : row.action_values with
    | none => simp [normalizeRow, hav]
    | some l =>
      cases hf : l.find? fun a => a.action_type = omniPurchaseStr with
      | some e => simp [normalizeRow, hav, hf, Option.orElse]
      | none =>
        cases hg : l.find? fun a => a.action_type = purchaseStr with
        | some e => simp [normalizeRow, hav, hf, hg, Option.orElse]
        | none => simp [normalizeRow, hav, hf, hg, Option.orElse]
  · cases ha : row.actions with
    | none => simp [normalizeRow, ha]
    | some l => simp [normalizeRow, ha]

/- ── Claim C9: every raw row yields a record with a resolved status ── -/

/-- C9: the normalization step of fetchAdData produces exactly one output
record per retrieved raw row, in order, each carrying the raw row's ad_id
and a status that is the status map's entry for that ad_id when present and
the UNKNOWN sentinel otherwise — a status is never absent. -/
theorem claim_C9_status_total (rows : List FacebookInsightRow)
    (statusMap : List (String × String)) :
    (fetchAdDataNormalized rows statusMap).map (fun rec => (rec.ad_id, rec.status)) =
      rows.map fun row =>
        (row.ad_id, (mapGet statusMap row.ad_id).getD unknownStr) := by
  simp [fetchAdDataNormalized, normalizeRow]

/- ── Claim C2: retry exhaustion ── -/

/-- One retryable attempt consumes one unit of fuel, performs its sleep, and
updates the recorded lastError (rate-limit attempts leave it unchanged). -/
theorem fetchWithRetryGo_step (env : Nat → AttemptOutcome) (rand : Nat → ℚ)
    (fuel made : Nat) (le : Option String) (sl : List ℚ)
    (h : RetryableOutcome (env (made + 1))) :
    fetchWithRetryGo env rand (fuel + 1) made le sl =
      fetchWithRetryGo env rand fuel (made + 1)
        (recordedMsgUpdate (env (made + 1)) le)
        (retrySleep env rand (made + 1) :: sl) := by
  rcases h with ⟨r, e, payload, ho, hb, hauth, hrl⟩ | ⟨r, ho, hb, hst⟩ | ⟨m, ho, htr⟩
  · rw [fetchWithRetryGo]
    simp [ho, hb, hauth, hrl, recordedMsgUpdate, retrySleep]
  · rw [fetchWithRetryGo]
    simp [ho, hb, hst, recordedMsgUpdate, retrySleep]
  · have htr2 : (strContains m fetchFailedStr || strContains m econnresetStr) = true :=
      htr
    rw [fetchWithRetryGo]
    simp [ho, htr2, recordedMsgUpdate, retrySleep]

/-- C2, as the code has it: when all MAX_RETRIES attempts observe retryable
failures (rate-limit, server-transient or network-transient), the loop
performs exactly MAX_RETRIES attempts, sleeps once per attempt (the resolved
wait for rate limits, backoff-with-jitter for the transients), and then
fails with the aggregate FacebookApiError whose message embeds the recorded
lastError — which is the most recent server/network-transient error, because
the rate-limit branch never assigns lastError (so the aggregate does NOT
always carry the last observed error kind; see the counterexample). For a
transient classification on attempt n the sleep is exactly 2^n seconds plus
the jitter rand n in [0,1) seconds added, there is no cap in the code, and
the base components are non-decreasing in n. -/
theorem claim_C2_retry_exhaustion (env : Nat → AttemptOutcome) (rand : Nat → ℚ)
    (h1 : RetryableOutcome (env 1)) (h2 : RetryableOutcome (env 2))
    (h3 : RetryableOutcome (env 3)) :
    fetchWithRetry env rand =
        ⟨.apiFail (failedAfterMsg (lastRecorded env 3)) none none, MAX_RETRIES,
          [retrySleep env rand 1, retrySleep env rand 2, retrySleep env rand 3]⟩ ∧
      (∀ n, TransientOutcome (env n) →
        retrySleep env rand n = 2 ^ n * 1000 + rand n * 1000) ∧
      (∀ n, 0 ≤ rand n → rand n < 1 →
        2 ^ n * 1000 ≤ backoffWithJitter n (rand n) ∧
          backoffWithJitter n (rand n) < 2 ^ n * 1000 + 1000) ∧
      (∀ n, (2 ^ n * 1000 : ℚ) ≤ 2 ^ (n + 1) * 1000) := by
  refine ⟨?_, ?_, ?_, ?_⟩
  · show fetchWithRetryGo env rand (2 + 1) 0 none [] = _
    rw [fetchWithRetryGo_step env rand 2 0 none [] h1]
    show fetchWithRetryGo env rand (1 + 1) 1 _ _ = _
    rw [fetchWithRetryGo_step env rand 1 1 _ _ h2]
    show fetchWithRetryGo env rand (0 + 1) 2 _ _ = _
    rw [fetchWithRetryGo_step env rand 0 2 _ _ h3]
    rw [fetchWithRetryGo]
    simp [lastRecorded, MAX_RETRIES, show List.range 3 = [0, 1, 2] from rfl]
  · intro n h
    rcases h with ⟨r, ho, hb, _⟩ | ⟨m, ho, _⟩
    · simp [retrySleep, ho, hb, backoffWithJitter]
    · simp [retrySleep, ho, backoffWithJitter]
  · intro n hr0 hr1
    simp only [backoffWithJitter]
    constructor
    · nlinarith
    · nlinarith
  · intro n
    have hpos : (0 : ℚ) < 2 ^ n := pow_pos (by norm_num) n
    rw [pow_succ]
    nlinarith

/-- Witness for C2 on a trace of three server-transient attempts with zero
jitter: exactly 3 attempts, backoff sleeps of 2, 4 and 8 seconds, and the
aggregate error embedding the recorded server error. -/
theorem claim_C2_retry_exhaustion_witness :
    fetchWithRetry envAllSrvErr rand0 =
        ⟨.apiFail (failedAfterMsg (some (serverErrorMsg 503))) none none, 3,
          [2000, 4000, 8000]⟩ ∧
      RetryableOutcome (envAllSrvErr 1) := by
  have hro : ∀ n, RetryableOutcome (envAllSrvErr n) := fun n =>
    Or.inr (Or.inl ⟨respSrvErr, rfl, rfl, by norm_num [respSrvErr]⟩)
  refine ⟨?_, hro 1⟩
  rw [(claim_C2_retry_exhaustion envAllSrvErr rand0 (hro 1) (hro 2) (hro 3)).1]
  simp only [retrySleep, lastRecorded, recordedMsgUpdate, envAllSrvErr, respSrvErr,
    rand0, backoffWithJitter, MAX_RETRIES, serverErrorMsg,
    show List.range 3 = [0, 1, 2] from rfl, List.foldl]
  norm_num

/-- Counterexample to C2 as stated: all three attempts are retryable and the
LAST observed failure is a rate-limit error (code 4 on attempts 2 and 3),
yet the aggregate error message embeds the first attempt's server-transient
error, not the rate-limit one, because the rate-limit branch never records
lastError. The claim's "aggregate error carrying the last observed error
kind" therefore fails on this input. -/
theorem claim_C2_counterexample :
    envRlLast 3 = .response respRlX ∧
      respRlX.body = .parsed (some rlErrX) 0 ∧
      isRateLimitError rlErrX = true ∧
      envRlLast 1 = .response respSrvErr ∧ respSrvErr.body = .unparseable ∧
      fetchWithRetry envRlLast rand0 =
        ⟨.apiFail (failedAfterMsg (some (serverErrorMsg 503))) none none, 3,
          [2000, 300000, 300000]⟩ ∧
      failedAfterMsg (some (serverErrorMsg 503)) ≠ failedAfterMsg (some rlMsgX) := by
  have h1 : RetryableOutcome (envRlLast 1) :=
    Or.inr (Or.inl ⟨respSrvErr, rfl, rfl, by norm_num [respSrvErr]⟩)
  have h2 : RetryableOutcome (envRlLast 2) :=
    Or.inl ⟨respRlX, rlErrX, 0, rfl, rfl, by decide, by decide⟩
  have h3 : RetryableOutcome (envRlLast 3) :=
    Or.inl ⟨respRlX, rlErrX, 0, rfl, rfl, by decide, by decide⟩
  refine ⟨rfl, rfl, by decide, rfl, rfl, ?_, by decide⟩
  show fetchWithRetryGo envRlLast rand0 (2 + 1) 0 none [] = _
  rw [fetchWithRetryGo_step envRlLast rand0 2 0 none [] h1]
  show fetchWithRetryGo envRlLast rand0 (1 + 1) 1 _ _ = _
  rw [fetchWithRetryGo_step envRlLast rand0 1 1 _ _ h2]
  show fetchWithRetryGo envRlLast rand0 (0 + 1) 2 _ _ = _
  rw [fetchWithRetryGo_step envRlLast rand0 0 2 _ _ h3]
  rw [fetchWithRetryGo]
  simp only [recordedMsgUpdate, retrySleep, envRlLast, respRlX, respSrvErr, rand0,
    backoffWithJitter, getWaitTimeFromHeaders, DEFAULT_RATE_LIMIT_WAIT_MS,
    serverErrorMsg, List.reverse]
  norm_num

/- ── Claim C7: helper lemmas about dedup, chunking and the map ── -/

/-- jsDedup preserves membership. -/
theorem mem_jsDedup (a : String) : ∀ (l : List String), a ∈ jsDedup l ↔ a ∈ l := by
  intro l
  induction l using jsDedup.induct with
  | case1 => simp [jsDedup]
  | case2 x xs ih =>
    rw [jsDedup]
    by_cases hax : a = x
    · simp [hax]
    · simp only [List.mem_cons, hax, false_or, ih, List.mem_filter,
        decide_eq_true_eq]
      constructor
      · exact fun h => h.1
      · exact fun h => ⟨h, by simpa using hax⟩

/-- jsDedup yields a duplicate-free list. -/
theorem jsDedup_nodup : ∀ (l : List String), (jsDedup l).Nodup := by
  intro l
  induction l using jsDedup.induct with
  | case1 => simp [jsDedup]
  | case2 x xs ih =>
    rw [jsDedup]
    refine List.nodup_cons.mpr ⟨?_, ih⟩
    intro hmem
    have := (mem_jsDedup x (xs.filter fun y => y ≠ x)).mp hmem
    simp at this

/-- A duplicate-free list is unchanged by jsDedup. -/
theorem jsDedup_eq_self : ∀ (l : List String), l.Nodup → jsDedup l = l := by
  intro l
  induction l using jsDedup.induct with
  | case1 => simp [jsDedup]
  | case2 x xs ih =>
    intro hnd
    rw [jsDedup]
    obtain ⟨hx, hxs⟩ := List.nodup_cons.mp hnd
    have hfil : (xs.filter fun y => y ≠ x) = xs := by
      apply List.filter_eq_self.mpr
      intro a ha
      simp only [ne_eq, decide_eq_true_eq]
      intro h
      exact hx (h ▸ ha)
    rw [hfil] at ih ⊢
    rw [ih hxs]

/-- The chunks concatenate back to the original list. -/
theorem chunkList_flatten : ∀ (l : List String), (chunkList l).flatten = l := by
  intro l
  induction l using chunkList.induct with
  | case1 => simp [chunkList]
  | case2 x xs ih =>
    rw [chunkList]
    simp [ih]

/-- Every chunk of a list is nonempty. -/
theorem chunkList_ne_nil : ∀ (l : List String), ∀ b ∈ chunkList l, b ≠ [] := by
  intro l
  induction l using chunkList.induct with
  | case1 => simp [chunkList]
  | case2 x xs ih =>
    rw [chunkList]
    intro b hb
    rcases List.mem_cons.mp hb with rfl | hb2
    · simp [BATCH_SIZE]
    · exact ih b hb2

/-- Chunks of a duplicate-free list are pairwise disjoint. -/
theorem chunkList_pairwise_disjoint (l : List String) (h : l.Nodup) :
    (chunkList l).Pairwise List.Disjoint := by
  have : (chunkList l).flatten.Nodup := by rw [chunkList_flatten]; exact h
  exact (List.nodup_flatten.mp this).2

/-- Looking up the key just set returns the new value. -/
theorem mapGet_mapSet_self (k v : String) :
    ∀ (m : List (String × String)), mapGet (mapSet m k v) k = some v := by
  intro m
  induction m with
  | nil => simp [mapSet, mapGet]
  | cons hd tl ih =>
    obtain ⟨a, b⟩ := hd
    by_cases hak : a = k
    · simp [mapSet, hak, mapGet]
    · simp only [mapSet, hak, if_false]
      simpa [mapGet, List.find?, hak] using ih

/-- Setting one key leaves every other key's lookup unchanged. -/
theorem mapGet_mapSet_ne (k v k2 : String) (hne : k2 ≠ k) :
    ∀ (m : List (String × String)), mapGet (mapSet m k v) k2 = mapGet m k2 := by
  intro m
  have hne2 : ¬(k = k2) := fun h => hne h.symm
  induction m with
  | nil => simp [mapSet, mapGet, List.find?, hne2]
  | cons hd tl ih =>
    obtain ⟨a, b⟩ := hd
    by_cases hak : a = k
    · subst hak
      simp [mapSet, mapGet, List.find?, hne2]
    · simp only [mapSet, hak, if_false]
      by_cases hak2 : a = k2
      · simp [mapGet, List.find?, hak2]
      · simpa [mapGet, List.find?, hak2] using ih

/-- A fold writing one value per listed key does not affect other keys. -/
theorem mapGet_writeFold_not_mem (g : String → String) (id : String) :
    ∀ (l : List String) (m : List (String × String)), id ∉ l →
      mapGet (l.foldl (fun m2 x => mapSet m2 x (g x)) m) id = mapGet m id := by
  intro l
  induction l with
  | nil => intro m _; rfl
  | cons x xs ih =>
    intro m hid
    simp only [List.mem_cons, not_or] at hid
    rw [List.foldl_cons, ih (mapSet m x (g x)) hid.2,
      mapGet_mapSet_ne x (g x) id hid.1]

/-- A fold writing one value per listed key stores g id under every listed
id. -/
theorem mapGet_writeFold_mem (g : String → String) (id : String) :
    ∀ (l : List String) (m : List (String × String)), id ∈ l →
      mapGet (l.foldl (fun m2 x => mapSet m2 x (g x)) m) id = some (g id) := by
  intro l
  induction l with
  | nil => intro m h; simp at h
  | cons x xs ih =>
    intro m hid
    rw [List.foldl_cons]
    by_cases hxs : id ∈ xs
    · exact ih _ hxs
    · rcases List.mem_cons.mp hid with rfl | h2
      · rw [mapGet_writeFold_not_mem g id xs _ hxs, mapGet_mapSet_self]
      · exact absurd h2 hxs

/-- Processing one batch does not affect ids outside the batch, provided the
lookup answers have the assumed shape (only the batch's own ids occur). -/
theorem applyBatch_get_of_not_mem (lookup : List String → BatchResult)
    (f : String → String) (b : List String) (m : List (String × String))
    (id : String)
    (hshape : lookup b = .err ∨ lookup b = .ok (b.map fun i => (i, some (f i))))
    (hid : id ∉ b) :
    mapGet (applyBatch lookup m b) id = mapGet m id := by
  rcases hshape with h | h
  · rw [applyBatch, h]
    exact mapGet_writeFold_not_mem (fun _ => unknownStr) id b m hid
  · simp only [applyBatch, h]
    rw [List.foldl_map]
    simp only [Option.getD_some]
    exact mapGet_writeFold_not_mem f id b m hid

/-- Processing one batch stores the batch value of each of its ids: UNKNOWN
throughout a failed batch, the looked-up status in a successful one. -/
theorem applyBatch_get_of_mem (lookup : List String → BatchResult)
    (f : String → String) (b : List String) (m : List (String × String))
    (id : String)
    (hshape : lookup b = .err ∨ lookup b = .ok (b.map fun i => (i, some (f i))))
    (hid : id ∈ b) :
    mapGet (applyBatch lookup m b) id = some (batchValue lookup f b id) := by
  rcases hshape with h | h
  · simp only [applyBatch, batchValue, h]
    exact mapGet_writeFold_mem (fun _ => unknownStr) id b m hid
  · simp only [applyBatch, batchValue, h]
    rw [List.foldl_map]
    simp only [Option.getD_some]
    exact mapGet_writeFold_mem f id b m hid

/-- Folding the per-batch body over batches not containing an id leaves that
id's lookup unchanged. -/
theorem foldBatches_get_of_not_mem (lookup : List String → BatchResult)
    (f : String → String) (id : String) :
    ∀ (bs : List (List String)) (m : List (String × String)),
      GoodLookup lookup f bs → (∀ b ∈ bs, id ∉ b) →
      mapGet (bs.foldl (applyBatch lookup) m) id = mapGet m id := by
  intro bs
  induction bs with
  | nil => intro m _ _; rfl
  | cons c rest ih =>
    intro m hg hnm
    rw [List.foldl_cons,
      ih _ (fun b hb => hg b (List.mem_cons_of_mem c hb))
        (fun b hb => hnm b (List.mem_cons_of_mem c hb)),
      applyBatch_get_of_not_mem lookup f c m id (hg c (List.mem_cons_self c rest))
        (hnm c (List.mem_cons_self c rest))]

/-- Folding the per-batch body over pairwise-disjoint batches stores, for an
id of a batch, exactly that batch's value for the id. -/
theorem foldBatches_get_of_mem (lookup : List String → BatchResult)
    (f : String → String) (id : String) :
    ∀ (bs : List (List String)) (m : List (String × String))
      (b : List String),
      GoodLookup lookup f bs → bs.Pairwise List.Disjoint →
      b ∈ bs → id ∈ b →
      mapGet (bs.foldl (applyBatch lookup) m) id =
        some (batchValue lookup f b id) := by
  intro bs
  induction bs with
  | nil => intro m b _ _ hb _; simp at hb
  | cons c rest ih =>
    intro m b hg hpw hb hid
    have hpw2 := List.pairwise_cons.mp hpw
    rcases List.mem_cons.mp hb with rfl | hbrest
    · rw [List.foldl_cons,
        foldBatches_get_of_not_mem lookup f id rest _
          (fun b2 hb2 => hg b2 (List.mem_cons_of_mem b hb2))
          (fun b2 hb2 => hpw2.1 b2 hb2 hid),
        applyBatch_get_of_mem lookup f b m id (hg b (List.mem_cons_self b rest))
          hid]
    · rw [List.foldl_cons]
      exact ih _ b (fun b2 hb2 => hg b2 (List.mem_cons_of_mem c hb2)) hpw2.2
        hbrest hid

/-- Unfolding equation for chunkList on a nonempty list. -/
theorem chunkList_cons_eq (l : List String) (h : l ≠ []) :
    chunkList l = l.take BATCH_SIZE :: chunkList (l.drop BATCH_SIZE) := by
  cases l with
  | nil => exact absurd rfl h
  | cons x xs => rw [chunkList]

/-- 120 ids batch into exactly the sizes 50, 50, 20. -/
theorem chunkList_lengths_120 (l : List String) (h : l.length = 120) :
    (chunkList l).map List.length = [50, 50, 20] := by
  have h0 : l ≠ [] := by intro he; rw [he] at h; simp at h
  have h1 : (l.drop BATCH_SIZE).length = 70 := by simp [BATCH_SIZE, h]
  have h1n : l.drop BATCH_SIZE ≠ [] := by intro he; rw [he] at h1; simp at h1
  have h2 : ((l.drop BATCH_SIZE).drop BATCH_SIZE).length = 20 := by
    simp [BATCH_SIZE, h]
  have h2n : (l.drop BATCH_SIZE).drop BATCH_SIZE ≠ [] := by
    intro he; rw [he] at h2; simp at h2
  have h3 : (((l.drop BATCH_SIZE).drop BATCH_SIZE).drop BATCH_SIZE).length = 0 := by
    simp [BATCH_SIZE, h]
  have h3n : ((l.drop BATCH_SIZE).drop BATCH_SIZE).drop BATCH_SIZE = [] := by
    cases hbig : (l.drop BATCH_SIZE).drop BATCH_SIZE |>.drop BATCH_SIZE with
    | nil => rfl
    | cons y ys => rw [hbig] at h3; simp at h3
  rw [chunkList_cons_eq l h0, chunkList_cons_eq _ h1n, chunkList_cons_eq _ h2n,
    h3n, chunkList]
  simp [List.length_take, BATCH_SIZE, h, h1, h2]

/- ── Claim C7 ── -/

/-- chunkList of the empty list is empty (unfolding lemma). -/
theorem chunkList_nil : chunkList [] = [] := by rw [chunkList]

/-- C7: fetchAdStatuses partitions the deduplicated ad ids into consecutive
batches of 50 and issues exactly one lookup per batch, in order; every id of
a batch whose lookup fails after its retries resolves to the explicit
UNKNOWN status in the returned map, every id of the other batches resolves
to its returned status, and the function returns normally rather than
aborting; 120 distinct ids batch as 50, 50, 20. -/
theorem claim_C7_batched_degradation (adIds : List String)
    (lookup : List String → BatchResult) (f : String → String)
    (failB : List String)
    (hne : adIds ≠ [])
    (hmem : failB ∈ chunkList (jsDedup adIds))
    (hfail : lookup failB = .err)
    (hok : ∀ b ∈ chunkList (jsDedup adIds), b ≠ failB →
      lookup b = .ok (b.map fun id => (id, some (f id)))) :
    (fetchAdStatuses adIds lookup).2 = chunkList (jsDedup adIds) ∧
    (∀ id ∈ failB, mapGet (fetchAdStatuses adIds lookup).1 id =
      some unknownStr) ∧
    (∀ b ∈ chunkList (jsDedup adIds), b ≠ failB →
      ∀ id ∈ b, mapGet (fetchAdStatuses adIds lookup).1 id = some (f id)) ∧
    (adIds.Nodup → adIds.length = 120 →
      (chunkList (jsDedup adIds)).map List.length = [50, 50, 20]) := by
  cases adIds with
  | nil => exact absurd rfl hne
  | cons a as =>
    have hg : GoodLookup lookup f (chunkList (jsDedup (a :: as))) := by
      intro b hb
      by_cases hbf : b = failB
      · subst hbf
        exact Or.inl hfail
      · exact Or.inr (hok b hb hbf)
    have hpw : (chunkList (jsDedup (a :: as))).Pairwise List.Disjoint :=
      chunkList_pairwise_disjoint _ (jsDedup_nodup _)
    refine ⟨rfl, ?_, ?_, ?_⟩
    · intro id hid
      show mapGet (runBatches lookup (chunkList (jsDedup (a :: as)))) id = _
      rw [runBatches,
        foldBatches_get_of_mem lookup f id (chunkList (jsDedup (a :: as))) []
          failB hg hpw hmem hid]
      simp only [batchValue, hfail]
    · intro b hb hbf id hid
      show mapGet (runBatches lookup (chunkList (jsDedup (a :: as)))) id = _
      rw [runBatches,
        foldBatches_get_of_mem lookup f id (chunkList (jsDedup (a :: as))) []
          b hg hpw hb hid]
      simp only [batchValue, hok b hb hbf]
    · intro hnd h120
      rw [jsDedup_eq_self _ hnd]
      exact chunkList_lengths_120 _ (by simpa using h120)

set_option maxRecDepth 40000 in
/-- The 120 witness ids deduplicate to themselves and batch into exactly
batch1W, batch2W, batch3W. -/
theorem chunkList_adIdsW :
    chunkList (jsDedup adIdsW) = [batch1W, batch2W, batch3W] := by
  rw [jsDedup_eq_self adIdsW (by decide)]
  rw [chunkList_cons_eq adIdsW (by decide)]
  rw [show adIdsW.take BATCH_SIZE = batch1W from by decide]
  rw [show adIdsW.drop BATCH_SIZE = rest1W from by decide]
  rw [chunkList_cons_eq rest1W (by decide)]
  rw [show rest1W.take BATCH_SIZE = batch2W from by decide]
  rw [show rest1W.drop BATCH_SIZE = batch3W from by decide]
  rw [chunkList_cons_eq batch3W (by decide)]
  rw [show batch3W.take BATCH_SIZE = batch3W from by decide]
  rw [show batch3W.drop BATCH_SIZE = ([] : List String) from by decide]
  rw [chunkList_nil]

set_option maxRecDepth 40000 in
/-- Witness for C7 at 120 concrete distinct ids with the second batch
failing: the 50 ids of that batch resolve to UNKNOWN, ids of the first
batch resolve to their returned statuses, exactly one lookup per batch is
issued (three batches), and the batch sizes are 50, 50, 20. -/
theorem claim_C7_batched_degradation_witness :
    (∀ id ∈ batch2W, mapGet (fetchAdStatuses adIdsW lookupW).1 id =
      some unknownStr) ∧
    (fetchAdStatuses adIdsW lookupW).2 = [batch1W, batch2W, batch3W] ∧
    (chunkList (jsDedup adIdsW)).map List.length = [50, 50, 20] ∧
    (∀ id ∈ batch1W, mapGet (fetchAdStatuses adIdsW lookupW).1 id =
      some (fW id)) := by
  have hmem : batch2W ∈ chunkList (jsDedup adIdsW) := by
    rw [chunkList_adIdsW]
    simp
  have hfail : lookupW batch2W = .err := by simp [lookupW]
  have hok : ∀ b ∈ chunkList (jsDedup adIdsW), b ≠ batch2W →
      lookupW b = .ok (b.map fun id => (id, some (fW id))) := by
    intro b _ hneq
    simp [lookupW, hneq]
  have h := claim_C7_batched_degradation adIdsW lookupW fW batch2W (by decide)
    hmem hfail hok
  refine ⟨h.2.1, ?_, h.2.2.2 (by decide) (by decide), ?_⟩
  · rw [h.1, chunkList_adIdsW]
  · intro id hid
    refine h.2.2.1 batch1W ?_ (by decide) id hid
    rw [chunkList_adIdsW]
    simp

/-- Witness for C3 at concrete headers: under a nonempty first key, a
10-minute estimate resolves to 600000 ms; an absent header resolves to the
300000 ms default. -/
theorem claim_C3_wait_time_resolution_witness :
    aStr ≠ emptyStr ∧
      getWaitTimeFromHeaders (.parsed [(aStr, .arr [⟨some 10⟩])]) none = 600000 ∧
      getWaitTimeFromHeaders .absent none = 300000 :=
  ⟨by decide, claim_C3_wait_time_resolution.1 none aStr [] [] (by decide),
    claim_C3_wait_time_resolution.2.1 none⟩

/-- Witness for C10 at a concrete header with a zero estimate. -/
theorem claim_C10_zero_estimate_falls_back_witness :
    getWaitTimeFromHeaders (.parsed [(aStr, .arr [⟨some 0⟩])]) none =
        DEFAULT_RATE_LIMIT_WAIT_MS ∧
      DEFAULT_RATE_LIMIT_WAIT_MS = 300000 ∧ DEFAULT_RATE_LIMIT_WAIT_MS ≠ 0 :=
  claim_C10_zero_estimate_falls_back none aStr [] []

/-- Witness for C8 at a concrete row with no action arrays: both purchase
fields are null and actions is empty. -/
theorem claim_C8_normalizer_witness :
    (normalizeRow (mkRowW aStr) unknownStr).purchase_roas = none ∧
      (normalizeRow (mkRowW aStr) unknownStr).purchase_value = none ∧
      (normalizeRow (mkRowW aStr) unknownStr).actions = [] := by
  have h := claim_C8_normalizer (mkRowW aStr) unknownStr
  exact ⟨h.1.trans rfl, h.2.1.trans rfl, h.2.2.trans rfl⟩

/-- Witness for C9 at one concrete row and the empty status map: the record
appears with the UNKNOWN sentinel. -/
theorem claim_C9_status_total_witness :
    (fetchAdDataNormalized [mkRowW aStr] []).map
        (fun rec => (rec.ad_id, rec.status)) = [(aStr, unknownStr)] := by
  rw [claim_C9_status_total [mkRowW aStr] []]
  rfl
